import Mathlib

/-!
Verification of the grammar interpreter in
`src/sphinx_matlab/grammar/parser.py` (class `GrammarParser`).

The development is a shallow embedding of the Python source:

* `TextStream` models `io.StringIO` (a character buffer plus a cursor);
  every stateful stream operation is explicit state passing.
* `Pattern` models a compiled `onigurumacffi` pattern: the regex engine is
  an external collaborator, so a pattern is its source text (used only for
  the syntactic lookbehind test on line 274) together with an oracle
  `searchFn` standing for `regex.search(line)`.  `MatchObj` carries what the
  source reads off a match object: `start()`, `end()` and per-group spans.
* `ParsedElement` models the element values; the classes `ParsedElement`
  and `ParsedElementBlock` live in `elements.py` which is not part of the
  sources, so their shape is modelled from the spec (section 3: Element and
  BlockElement with token, content, captures, and optional begin and end
  sub-elements).  The constructor `raw` represents a bare Python string
  placed into an element list, which the source does on line 143.
* The interpreter functions `parse`, `search`, `match_patterns` carry an
  explicit fuel argument; exhausting the fuel yields `Out.diverge`, and an
  uncaught Python exception yields `Out.err`.
-/

namespace TMGrammar

/-! ## Streams: the model of io.StringIO -/

/-- A character buffer with a cursor, modelling `io.StringIO`. -/
structure TextStream where
  content : List Char
  pos : Nat
deriving Repr, DecidableEq

/-- `stream.tell()`. -/
def TextStream.tell (s : TextStream) : Nat := s.pos

/-- `stream.seek(p)`. -/
def TextStream.seek (s : TextStream) (p : Nat) : TextStream := { s with pos := p }

/-- `stream.read(n)`: a negative `n` reads to the end of the buffer,
otherwise at most `n` characters are read; the cursor advances by the
number of characters actually read. -/
def TextStream.readChars (s : TextStream) (n : Int) : List Char × TextStream :=
  let avail := s.content.drop s.pos
  let taken := if n < 0 then avail else avail.take n.toNat
  (taken, { s with pos := s.pos + taken.length })

/-- `stream.readline()`: reads up to and including the next newline. -/
def TextStream.readline (s : TextStream) : List Char × TextStream :=
  let rest := s.content.drop s.pos
  let line :=
    match rest.findIdx? (fun c => c = '\n') with
    | some i => rest.take (i + 1)
    | none => rest
  (line, { s with pos := s.pos + line.length })

/-- `GrammarParser.stream_end_pos` (lines 75-80): the buffer length; the
cursor is restored, so the operation is pure. -/
def stream_end_pos (s : TextStream) : Nat := s.content.length

/-- `GrammarParser.stream_read_pos` (lines 82-87): seek to `a`, read
`b - a` characters, then seek to `b`. -/
def stream_read_pos (s : TextStream) (a b : Nat) : String × TextStream :=
  let s1 := s.seek a
  let (cs, _) := s1.readChars ((b : Int) - (a : Int))
  (String.mk cs, s.seek b)

/-! ## The regex adapter -/

/-- What the source reads off an `onigurumacffi` match object:
`matching.start()`, `matching.end()`, and `matching.span(g)` per group.
`group g = none` models a group that did not participate in the match
(where `matching.group(g)` returns `None`). -/
structure MatchObj where
  start : Nat
  stop : Nat
  group : Nat → Option (Nat × Nat)

/-- A compiled pattern: its source text (`regex._pattern`) and the engine
oracle `regex.search(line)`. -/
structure Pattern where
  source : List Char
  searchFn : List Char → Option MatchObj

/-- Substring containment on character lists (Python's `needle in hay`). -/
def listContainsSub (needle hay : List Char) : Bool :=
  (List.range (hay.length + 1)).any (fun i => needle.isPrefixOf (hay.drop i))

/-- Line 274: `performLookbehind = "(?<" in regex._pattern`. -/
def performLookbehind (regex : Pattern) : Bool :=
  listContainsSub "(?<".data regex.source

/-- Modelled from the spec: section 4.2 requires "detection that a compiled
pattern contains a lookbehind construct (syntactic test: contains the
substring `(?<` followed by `=` or `!`)".  This definition follows the
spec's words; the source's test is `performLookbehind`. -/
def specLookbehindDetect (source : List Char) : Bool :=
  listContainsSub "(?<=".data source || listContainsSub "(?<!".data source

/-! ## Elements -/

/-- Modelled from the spec: `elements.py` is not among the sources, so the
element value objects follow section 3 of the spec: an `Element` has a
token, a content string and a list of captured child elements; a
`BlockElement` additionally has optional begin and end elements.  `raw`
represents a bare Python string placed into an element list (the source
returns `[self.stream_read_pos(...)]`, a list holding a plain string, on
line 143). -/
inductive ParsedElement where
  | elem (token : String) (content : String) (captures : List ParsedElement)
  | block (token : String) (content : String) (captures : List ParsedElement)
      (beginEl : Option ParsedElement) (endEl : Option ParsedElement)
  | raw (s : String)
deriving Repr

/-! ## Parsers and rule references -/

mutual

/-- The state a constructed `GrammarParser` object carries (lines 15-37):
tokens, the compiled patterns of its shape, capture maps and child pattern
references.  `Pattern` values stand for the results of `re.compile`. -/
inductive GrammarParser where
  | mk (token contentToken comment key : String)
      (matchPat beginPat endPat : Option Pattern)
      (captures beginCaptures endCaptures : List (Nat × Ref))
      (patterns : List Ref)

/-- What `set_parser` (lines 57-64) stores in `patterns` and in capture
maps: the constructing parser itself for `"$self"`, the include name with
its first character stripped for any other include string, or an inline
sub-parser.  The Python code stores the parser object itself for `$self`;
the embedding keeps a marker and resolves it to the owning parser at use
sites, which is the same object. -/
inductive Ref where
  | self
  | ref (name : String)
  | inline (p : GrammarParser)

end

def GrammarParser.token : GrammarParser → String
  | .mk t _ _ _ _ _ _ _ _ _ _ => t

def GrammarParser.contentToken : GrammarParser → String
  | .mk _ c _ _ _ _ _ _ _ _ _ => c

def GrammarParser.comment : GrammarParser → String
  | .mk _ _ c _ _ _ _ _ _ _ _ => c

def GrammarParser.key : GrammarParser → String
  | .mk _ _ _ k _ _ _ _ _ _ _ => k

def GrammarParser.matchPat : GrammarParser → Option Pattern
  | .mk _ _ _ _ m _ _ _ _ _ _ => m

def GrammarParser.beginPat : GrammarParser → Option Pattern
  | .mk _ _ _ _ _ b _ _ _ _ _ => b

def GrammarParser.endPat : GrammarParser → Option Pattern
  | .mk _ _ _ _ _ _ e _ _ _ _ => e

def GrammarParser.captures : GrammarParser → List (Nat × Ref)
  | .mk _ _ _ _ _ _ _ c _ _ _ => c

def GrammarParser.beginCaptures : GrammarParser → List (Nat × Ref)
  | .mk _ _ _ _ _ _ _ _ b _ _ => b

def GrammarParser.endCaptures : GrammarParser → List (Nat × Ref)
  | .mk _ _ _ _ _ _ _ _ _ e _ => e

def GrammarParser.patterns : GrammarParser → List Ref
  | .mk _ _ _ _ _ _ _ _ _ _ p => p

/-! ## Grammars and construction -/

mutual

/-- The in-memory grammar mapping (the recognized keys of section 3).  The
regex fields hold the `Pattern` values that `re.compile` would produce;
absent keys are `none` or `[]`. -/
inductive Grammar where
  | mk (name contentName comment : String)
      (matchPat beginPat endPat : Option Pattern)
      (captures beginCaptures endCaptures : List (Nat × RawRule))
      (patterns : List RawRule)

/-- An entry of a grammar's `patterns` list or captures map: either an
include string or an inline sub-grammar. -/
inductive RawRule where
  | include (s : String)
  | gram (g : Grammar)

end

def Grammar.patterns : Grammar → List RawRule
  | .mk _ _ _ _ _ _ _ _ _ p => p

mutual

/-- `GrammarParser.__init__` (lines 15-37).  The elif chain: a `match` key
wins over `begin`/`end`; begin and end are compiled only when both are
present.  Sub-parsers built by `set_parser` are constructed with an empty
key (so they do not register in the parser store). -/
def GrammarParser.init (g : Grammar) (key : String) : GrammarParser :=
  match g with
  | .mk name contentName comment mP bP eP caps bCaps eCaps pats =>
    if mP.isSome then
      .mk name contentName comment key mP none none
        (initCaptures caps) [] [] (initRules pats)
    else if bP.isSome && eP.isSome then
      .mk name contentName comment key none bP eP
        [] (initCaptures bCaps) (initCaptures eCaps) (initRules pats)
    else
      .mk name contentName comment key none none none
        [] [] [] (initRules pats)

/-- `set_parser` (lines 57-64): `"$self"` yields the constructing parser,
any other include string is stripped of its first character, and a plain
grammar is constructed inline. -/
def setParser : RawRule → Ref
  | .include s =>
    if s = "$self" then .self else .ref (String.mk (s.data.drop 1))
  | .gram g => .inline (GrammarParser.init g "")

/-- `__init_captures` (lines 39-44): every capture entry goes through
`set_parser`. -/
def initCaptures : List (Nat × RawRule) → List (Nat × Ref)
  | [] => []
  | (gid, r) :: rest => (gid, setParser r) :: initCaptures rest

/-- Line 37: `self.patterns = [self.set_parser(pattern) for pattern in ...]`. -/
def initRules : List RawRule → List Ref
  | [] => []
  | r :: rest => setParser r :: initRules rest

end

/-- The class-level `PARSERSTORE` (line 11), threaded explicitly. -/
def Store := List (String × GrammarParser)

def storeLookup (store : Store) (k : String) : Option GrammarParser :=
  match store with
  | [] => none
  | (k', p) :: rest => if k' = k then some p else storeLookup rest k

/-- Lines 25-26: a parser constructed with a non-empty key registers itself
in the parser store.  Construction itself never consults the store. -/
def initWithStore (g : Grammar) (key : String) (store : Store) :
    GrammarParser × Store :=
  let p := GrammarParser.init g key
  (p, if key = "" then store else (key, p) :: store)

/-! ## Errors and outcomes -/

/-- Uncaught Python exceptions the interpreter can raise:
`IncludedParserNotFound` from `get_parser` (line 72), and the dynamic
`AttributeError` a bare include string stored in a captures map would
raise when used as a parser object. -/
inductive PyErr where
  | includedParserNotFound (name : String)
  | attributeError
deriving Repr, DecidableEq

/-- Outcome of a fueled computation: `diverge` when the fuel runs out
(modelling non-termination), `err` an uncaught exception, or a value. -/
inductive Out (α : Type) where
  | diverge
  | err (e : PyErr)
  | ok (a : α)
deriving Repr

/-! ## Reference resolution -/

/-- `get_parser` (lines 66-73): a string is looked up in the parser store
and raises `IncludedParserNotFound` when absent; a parser object (the
owner for `$self`, or an inline parser) passes through. -/
def getParser (store : Store) (owner : GrammarParser) : Ref → Out GrammarParser
  | .self => .ok owner
  | .inline p => .ok p
  | .ref n =>
    match storeLookup store n with
    | some p => .ok p
    | none => .err (.includedParserNotFound n)

/-- Line 214: `parsers = [self.get_parser(callId) for callId in self.patterns]`. -/
def resolveAll (store : Store) (owner : GrammarParser) : List Ref → Out (List GrammarParser)
  | [] => .ok []
  | r :: rest =>
    match getParser store owner r with
    | .diverge => .diverge
    | .err e => .err e
    | .ok p =>
      match resolveAll store owner rest with
      | .diverge => .diverge
      | .err e => .err e
      | .ok ps => .ok (p :: ps)

/-- How `search` uses a captures-map entry: the Python code calls
`parser.parse` / `parser.token` directly on the stored value, so an
include string left in a captures map would raise an `AttributeError`. -/
def refParser (owner : GrammarParser) : Ref → Out GrammarParser
  | .self => .ok owner
  | .inline p => .ok p
  | .ref _ => .err .attributeError

/-- Key lookup in a captures map (`0 in parsers`, `parsers.items()`). -/
def lookupNat (l : List (Nat × Ref)) (k : Nat) : Option Ref :=
  match l with
  | [] => none
  | (k', r) :: rest => if k' = k then some r else lookupNat rest k

/-! ## The lookbehind search loop (lines 272-312) -/

/-- Line 12: `regex_lookbehind_max = 100`. -/
def regex_lookbehind_max : Nat := 100

/-- Line 13: `regex_lookbehind_step = 5`. -/
def regex_lookbehind_step : Nat := 5

/-- Python's `text.split("\n")`: the pieces between newlines, so that an
empty text gives one empty piece and a trailing newline gives a trailing
empty piece. -/
def splitNl (cs : List Char) : List (List Char) :=
  match cs with
  | [] => [[]]
  | c :: rest =>
    let r := splitNl rest
    if c = '\n' then [] :: r
    else
      match r with
      | h :: t => (c :: h) :: t
      | [] => [[c]]

/-- Lines 288-296: scan the windowed lines in order, returning the first
line's match together with that line's starting offset `linePos`. -/
def findFirstLine (regex : Pattern) : List (List Char) → Nat →
    Option (MatchObj × Nat)
  | [], _ => none
  | l :: ls, linePos =>
    match regex.searchFn l with
    | some m => some (m, linePos)
    | none => findFirstLine regex ls (linePos + l.length)

/-- One pass of the search loop at a given lookbehind `shift` (the loop
body, lines 282-306).  Windowed mode splits `read(readSize + lookbehind)`
into lines, re-appending the newline each; line mode reads one line and,
when `onlyLeadingWhiteSpace` is set, rejects a match preceded by a
non-space character.  Returns the match and `matchingToStreamPos`.
Python's `if readSize:` treats both `None` and `0` as line mode. -/
def scanPass (regex : Pattern) (content : List Char) (initPos : Nat)
    (readSize : Option Int) (onlyLeadingWhiteSpace : Bool) (shift : Nat) :
    Option (MatchObj × Nat) :=
  let windowed : Option Int :=
    match readSize with
    | some r => if r = 0 then none else some r
    | none => none
  match windowed with
  | some r =>
    let base := initPos - shift
    let (text, _) := TextStream.readChars ⟨content, base⟩ (r + (shift : Int))
    let lines := (splitNl text).map (fun l => l ++ ['\n'])
    match findFirstLine regex lines 0 with
    | some (m, linePos) => some (m, linePos + base)
    | none => none
  | none =>
    let base := initPos - shift
    let (line, _) := TextStream.readline ⟨content, base⟩
    match regex.searchFn line with
    | some m =>
      if onlyLeadingWhiteSpace && (line.take m.start).any (fun c => c ≠ ' ') then
        none
      else
        some (m, initPos + shift)
    | none => none

/-- The retry loop of `search` (lines 276-312).  The loop enters an
iteration only while `lookbehind <= regex_lookbehind_max`; within an
iteration the shift is clamped to `initPos` at buffer start (line 279-280),
which also ends the loop after that pass, as does the absence of a
lookbehind construct (line 277-278).  On a failed pass the shift grows by
`regex_lookbehind_step` (lines 294, 304).

The recursion is made structural on the extra bound `n`; every recursive
call increases `lb` by the step while the guard requires
`lb ≤ regex_lookbehind_max`, so from `runSearchLoop`'s entry the `n = 0`
branch (given the loop's exit value) is never reached.

The second component is a ghost log recording the shift used by each pass;
the first component is exactly the loop's result. -/
def searchLoopAux (regex : Pattern) (content : List Char) (initPos : Nat)
    (readSize : Option Int) (onlyLeadingWhiteSpace : Bool) (performLb : Bool) :
    Nat → Nat → Option (MatchObj × Nat) × List Nat
  | 0, _ => (none, [])
  | n + 1, lb =>
    if regex_lookbehind_max < lb then (none, [])
    else
      match scanPass regex content initPos readSize onlyLeadingWhiteSpace
          (if initPos < lb then initPos else lb) with
      | some r => (some r, [if initPos < lb then initPos else lb])
      | none =>
        if performLb ∧ lb ≤ initPos then
          match searchLoopAux regex content initPos readSize
              onlyLeadingWhiteSpace performLb n (lb + regex_lookbehind_step) with
          | (res, log) => (res, (if initPos < lb then initPos else lb) :: log)
        else (none, [if initPos < lb then initPos else lb])

/-- The search loop as `search` runs it: starting shift 0, with the
lookbehind test of line 274, and a recursion bound that the loop's own
guard makes unreachable (at most `max / step + 1` passes happen). -/
def runSearchLoop (regex : Pattern) (content : List Char) (initPos : Nat)
    (readSize : Option Int) (onlyLeadingWhiteSpace : Bool) :
    Option (MatchObj × Nat) × List Nat :=
  searchLoopAux regex content initPos readSize onlyLeadingWhiteSpace
    (performLookbehind regex) (regex_lookbehind_max / regex_lookbehind_step + 2) 0

/-! ## The dispatch ordering policy (lines 240-245) -/

/-- A memo entry of `match_patterns`: a parser's last successful elements
and `(matchStart, matchEnd)` span. -/
abbrev MemoE := List ParsedElement × (Nat × Nat)

/-- Lines 240-245: the running best is replaced by a candidate when the
best's element list is empty (`not patternElements`), or the candidate
starts earlier, or starts at the same place and ends later.  The position
is `none` only while the element list is empty (Python's lazy `or` never
reads `patternPos` otherwise); the `none` branch with a non-empty list is
dead code. -/
def updateBest (best : List ParsedElement × Option (Nat × Nat)) (cand : MemoE) :
    List ParsedElement × Option (Nat × Nat) :=
  if best.1.isEmpty then (cand.1, some cand.2)
  else
    match best.2 with
    | none => (cand.1, some cand.2)
    | some p =>
      if cand.2.1 < p.1 ∨ (cand.2.1 = p.1 ∧ p.2 < cand.2.2) then
        (cand.1, some cand.2)
      else best

/-- The selection `match_patterns` performs over the successful candidates
of one iteration, in `P` order: a left fold of `updateBest` from the
initial `patternElements, patternPos = [], None` (line 221). -/
def mpSelect (cands : List MemoE) : List ParsedElement × Option (Nat × Nat) :=
  cands.foldl updateBest ([], none)

/-- The ordering policy as the spec states it (section 4.6): smallest
`matchStart` wins, ties go to the largest `matchEnd`, further ties to the
earliest candidate in `P` order. -/
def specSelect : List MemoE → Option MemoE
  | [] => none
  | c :: rest =>
    match specSelect rest with
    | none => some c
    | some b =>
      if b.2.1 < c.2.1 ∨ (b.2.1 = c.2.1 ∧ c.2.2 < b.2.2) then some b else some c

/-! ## The interpreter: parse, search, match_patterns -/

abbrev ParseRes := Bool × List ParsedElement × Option (Nat × Nat)

abbrev SearchRes := Option String × List ParsedElement × Option Nat

/-- `readSize` of the match and begin searches (lines 101, 116):
`closePos - startPos + 1 if closePos is not None else None`. -/
def matchReadSize (startPos : Nat) (closePos : Option Nat) : Option Int :=
  closePos.map (fun c => (c : Int) - (startPos : Int) + 1)

/-- `readSize` of the end search (line 128):
`closePos - midStartPos + 1 if closePos is not None else -1`. -/
def endReadSize (midStart : Nat) (closePos : Option Nat) : Option Int :=
  some (match closePos with
    | some c => (c : Int) - (midStart : Int) + 1
    | none => -1)

mutual

/-- `GrammarParser.parse` (lines 89-209).  The four shapes in source
order: `match`, `begin`/`end`, `patterns`-only, leaf.  Success returns
`(True, elements, (parsedStart, stream.tell()))`; every failure returns
`(False, [], None)`.  `Option.getD 0` unwraps the start offset a
successful search always carries. -/
def parse (fuel : Nat) (store : Store) (p : GrammarParser)
    (stream0 : TextStream) (startPos : Nat) (closePos : Option Nat) :
    Out (ParseRes × TextStream) :=
  match fuel with
  | 0 => .diverge
  | fuel + 1 =>
    let stream := stream0.seek startPos
    match p.matchPat with
    | some mPat =>
      match search fuel store p mPat stream p.captures
          (matchReadSize startPos closePos) true with
      | .diverge => .diverge
      | .err e => .err e
      | .ok ((str?, caps, parsedStart?), s1) =>
        match str? with
        | none => .ok ((false, [], none), s1)
        | some str =>
          .ok ((true, [ParsedElement.elem p.token str caps],
            some (parsedStart?.getD 0, s1.pos)), s1)
    | none =>
      match p.beginPat, p.endPat with
      | some bPat, some ePat =>
        match search fuel store p bPat stream p.beginCaptures
            (matchReadSize startPos closePos) true with
        | .diverge => .diverge
        | .err e => .err e
        | .ok ((bStr?, beginCaptured, parsedStart?), s1) =>
          match bStr? with
          | none => .ok ((false, [], none), s1)
          | some _ =>
            let midStartPos := s1.tell
            match search fuel store p ePat s1 p.endCaptures
                (endReadSize midStartPos closePos) false with
            | .diverge => .diverge
            | .err e => .err e
            | .ok ((eStr?, endCaptured, midClosePos?), s2) =>
              let parsedEnd := s2.tell
              match eStr? with
              | none => .ok ((false, [], none), s2)
              | some _ =>
                let midClosePos := midClosePos?.getD 0
                if startPos = midStartPos ∧ closePos = some midClosePos then
                  let (content, s3) := stream_read_pos s2 midStartPos midClosePos
                  .ok ((true, [ParsedElement.raw content],
                    some (midStartPos, midClosePos)), s3)
                else
                  match (if p.patterns.isEmpty then .ok ([], s2)
                      else match_patterns fuel store p s2 midStartPos midClosePos :
                      Out (List ParsedElement × TextStream)) with
                  | .diverge => .diverge
                  | .err e => .err e
                  | .ok (midCaptured, s3) =>
                    let s4 := s3.seek parsedEnd
                    if p.contentToken = "" then
                      let (content, s5) :=
                        stream_read_pos s4 (parsedStart?.getD 0) parsedEnd
                      .ok ((true,
                        [ParsedElement.block
                          (if p.token = "" then p.comment else p.token) content
                          midCaptured beginCaptured.head? endCaptured.head?],
                        some (parsedStart?.getD 0, s5.pos)), s5)
                    else
                      let (content, s5) := stream_read_pos s4 midStartPos midClosePos
                      .ok ((true,
                        [ParsedElement.block p.token content
                          midCaptured beginCaptured.head? endCaptured.head?],
                        some (parsedStart?.getD 0, s5.pos)), s5)
      | _, _ =>
        if p.patterns.isEmpty then
          match closePos with
          | some c =>
            let (cs, s1) := stream.readChars ((c : Int) - (startPos : Int))
            .ok ((true, [ParsedElement.elem
              (if p.token = "" then p.comment else p.token) (String.mk cs) []],
              some (startPos, s1.pos)), s1)
          | none =>
            let parsedStart := stream.tell
            let (cs, s1) := stream.readline
            .ok ((true, [ParsedElement.elem
              (if p.token = "" then p.comment else p.token) (String.mk cs) []],
              some (parsedStart, s1.pos)), s1)
        else
          let parsedStart := startPos
          let parsedEnd :=
            match closePos with
            | some c => if c = 0 then stream_end_pos stream else c
            | none => stream_end_pos stream
          match match_patterns fuel store p stream parsedStart parsedEnd with
          | .diverge => .diverge
          | .err e => .err e
          | .ok (captured, s1) =>
            let patternClosePos := s1.tell
            if captured.isEmpty then
              .ok ((true, [], some (parsedStart, s1.pos)), s1)
            else if p.token = "" then
              .ok ((true, captured, some (parsedStart, s1.pos)), s1)
            else
              let (content, s2) := stream_read_pos s1 parsedStart patternClosePos
              .ok ((true, [ParsedElement.elem p.token content captured],
                some (parsedStart, s2.pos)), s2)
termination_by structural fuel

/-- `GrammarParser.search` (lines 255-344).  The retry loop is
`runSearchLoop`; on no match the stream rewinds to `initPos` and the
failure triple is returned.  On a match: a group-0 parser short-circuits
into a single element; otherwise each capture group with a non-empty
matched string is parsed by its parser, a failing group rewinding the
whole search; an empty assembled element list returns early without the
final seek to the match end. -/
def search (fuel : Nat) (store : Store) (owner : GrammarParser)
    (regex : Pattern) (stream : TextStream) (parsers : List (Nat × Ref))
    (readSize : Option Int) (onlyLeadingWhiteSpace : Bool) :
    Out (SearchRes × TextStream) :=
  match fuel with
  | 0 => .diverge
  | fuel + 1 =>
    let initPos := stream.tell
    match (runSearchLoop regex stream.content initPos readSize
        onlyLeadingWhiteSpace).1 with
    | none => .ok ((none, [], none), stream.seek initPos)
    | some (matching, matchingToStreamPos) =>
      let startPos := matchingToStreamPos + matching.start
      let closePos := matchingToStreamPos + matching.stop
      let s1 := stream.seek startPos
      let (cs, s2) := s1.readChars ((closePos : Int) - (startPos : Int))
      let matchedString := String.mk cs
      match lookupNat parsers 0 with
      | some r0 =>
        match refParser owner r0 with
        | .diverge => .diverge
        | .err e => .err e
        | .ok p0 =>
          .ok ((some matchedString,
            [ParsedElement.elem p0.token matchedString []], some startPos),
            s2.seek closePos)
      | none =>
        if parsers.isEmpty then
          .ok ((some matchedString, [], some startPos), s2.seek closePos)
        else
          match parseGroups fuel store owner matching matchingToStreamPos
              initPos s2 [] parsers with
          | .diverge => .diverge
          | .err e => .err e
          | .ok (none, s3) => .ok ((none, [], none), s3)
          | .ok (some els, s3) =>
            if els.isEmpty then
              .ok ((some matchedString, [], some startPos), s3)
            else
              .ok ((some matchedString, els, some startPos), s3.seek closePos)
termination_by structural fuel

/-- The capture-group loop of `search` (lines 323-336): groups whose
matched string is falsy (absent or empty) are skipped; each remaining
group's span, offset by `matchingToStreamPos`, is parsed by its parser; a
failing group seeks back to `initPos` and fails the search (`none`). -/
def parseGroups (fuel : Nat) (store : Store) (owner : GrammarParser)
    (matching : MatchObj) (mtsp initPos : Nat) (stream : TextStream)
    (acc : List ParsedElement) (ps : List (Nat × Ref)) :
    Out (Option (List ParsedElement) × TextStream) :=
  match fuel with
  | 0 => .diverge
  | fuel + 1 =>
    match ps with
    | [] => .ok (some acc, stream)
    | (gid, r) :: rest =>
      match matching.group gid with
      | none => parseGroups fuel store owner matching mtsp initPos stream acc rest
      | some (a, b) =>
        if a = b then
          parseGroups fuel store owner matching mtsp initPos stream acc rest
        else
          match refParser owner r with
          | .diverge => .diverge
          | .err e => .err e
          | .ok rp =>
            match parse fuel store rp stream (a + mtsp) (some (b + mtsp)) with
            | .diverge => .diverge
            | .err e => .err e
            | .ok ((matched, els, _), s1) =>
              if matched then
                parseGroups fuel store owner matching mtsp initPos s1
                  (acc ++ els) rest
              else
                .ok (none, s1.seek initPos)
termination_by structural fuel

/-- `GrammarParser.match_patterns` (lines 211-253): resolve the pattern
references (raising `IncludedParserNotFound` for an unknown include name),
seek to the window start, and run the dispatch loop with an empty memo. -/
def match_patterns (fuel : Nat) (store : Store) (self : GrammarParser)
    (stream : TextStream) (startPos closePos : Nat) :
    Out (List ParsedElement × TextStream) :=
  match fuel with
  | 0 => .diverge
  | fuel + 1 =>
    match resolveAll store self self.patterns with
    | .diverge => .diverge
    | .err e => .err e
    | .ok parsers =>
      mpLoop fuel store parsers (stream.seek startPos) closePos startPos
        (parsers.map (fun _ => none)) []
termination_by structural fuel

/-- The `while patternStartPos < closePos` loop (lines 220-251): run one
inner pass over the parsers; when the selected elements are non-empty,
append them and advance the cursor to the winner's `matchEnd`, otherwise
stop.  The memo is keyed per position in the parser list, modelling
Python's identity-keyed dictionaries over distinct parser objects. -/
def mpLoop (fuel : Nat) (store : Store) (parsers : List GrammarParser)
    (stream : TextStream) (closePos cursor : Nat)
    (memo : List (Option MemoE)) (captured : List ParsedElement) :
    Out (List ParsedElement × TextStream) :=
  match fuel with
  | 0 => .diverge
  | fuel + 1 =>
    if cursor < closePos then
      match mpInner fuel store stream closePos cursor ([], none)
          (parsers.zip memo) with
      | .diverge => .diverge
      | .err e => .err e
      | .ok ((els, pos?), memo', stream') =>
        if els.isEmpty then .ok (captured, stream')
        else
          match pos? with
          | none => .err .attributeError
          | some pp =>
            mpLoop fuel store parsers stream' closePos pp.2 memo'
              (captured ++ els)
    else .ok (captured, stream)
termination_by structural fuel

/-- The `for parser in parsers` pass (lines 222-245): a memoized result is
reused when its `matchStart` is at or past the cursor; otherwise the
parser is re-run at the cursor, a success refreshing the memo and a
failure skipping the parser; each candidate then updates the running best
through `updateBest`.  Returns the best, the updated memo and the stream. -/
def mpInner (fuel : Nat) (store : Store) (stream : TextStream)
    (closePos cursor : Nat) (best : List ParsedElement × Option (Nat × Nat))
    (items : List (GrammarParser × Option MemoE)) :
    Out ((List ParsedElement × Option (Nat × Nat)) × List (Option MemoE) ×
      TextStream) :=
  match fuel with
  | 0 => .diverge
  | fuel + 1 =>
    match items with
    | [] => .ok (best, [], stream)
    | (parser, mEntry) :: rest =>
      let cached : Option MemoE :=
        match mEntry with
        | some cand => if cursor ≤ cand.2.1 then some cand else none
        | none => none
      match cached with
      | some cand =>
        match mpInner fuel store stream closePos cursor
            (updateBest best cand) rest with
        | .diverge => .diverge
        | .err e => .err e
        | .ok (b, ms, st) => .ok (b, mEntry :: ms, st)
      | none =>
        match parse fuel store parser stream cursor (some closePos) with
        | .diverge => .diverge
        | .err e => .err e
        | .ok ((matched, els, pos?), stream') =>
          if matched then
            match pos? with
            | none => .err .attributeError
            | some pos =>
              match mpInner fuel store stream' closePos cursor
                  (updateBest best (els, pos)) rest with
              | .diverge => .diverge
              | .err e => .err e
              | .ok (b, ms, st) => .ok (b, some (els, pos) :: ms, st)
          else
            match mpInner fuel store stream' closePos cursor best rest with
            | .diverge => .diverge
            | .err e => .err e
            | .ok (b, ms, st) => .ok (b, mEntry :: ms, st)
termination_by structural fuel

end

/-! ## Derived runners and spec-side variants -/

/-- The match-shape body of `parse` (lines 96-107) as a function of the
window size handed to `search`, for stating which `readSize` the source
passes. -/
def matchShapeRun (fuel : Nat) (store : Store) (p : GrammarParser)
    (mPat : Pattern) (stream : TextStream) (rs : Option Int) :
    Out (ParseRes × TextStream) :=
  match search fuel store p mPat stream p.captures rs true with
  | .diverge => .diverge
  | .err e => .err e
  | .ok ((str?, caps, parsedStart?), s1) =>
    match str? with
    | none => .ok ((false, [], none), s1)
    | some str =>
      .ok ((true, [ParsedElement.elem p.token str caps],
        some (parsedStart?.getD 0, s1.pos)), s1)

/-- Modelled from the spec: section 4.4, Match shape, step 1 — "Run Search
Primitive with `regex = match`, `parsers = captures`,
`read_size = closePos − startPos`".  Identical to the match branch of
`parse` except that the window size follows the spec's words. -/
def parseMatchSpecC4 (fuel : Nat) (store : Store) (p : GrammarParser)
    (stream0 : TextStream) (startPos c : Nat) : Out (ParseRes × TextStream) :=
  match p.matchPat with
  | some mPat =>
    matchShapeRun fuel store p mPat (stream0.seek startPos)
      (some ((c : Int) - (startPos : Int)))
  | none => .ok ((false, [], none), stream0.seek startPos)

/-- The binary selection underlying the ordering policy: the challenger
`c` replaces the incumbent `b` only when it strictly beats it (earlier
start, or same start and later end). -/
def bestOf (b c : MemoE) : MemoE :=
  if c.2.1 < b.2.1 ∨ (c.2.1 = b.2.1 ∧ b.2.2 < c.2.2) then c else b

/-- Success projection of a `parse` outcome. -/
def parseOutcome : Out (ParseRes × TextStream) → Option ParseRes
  | .ok (r, _) => some r
  | _ => none

/-- Success projection of a `match_patterns` outcome. -/
def dispatchOutcome : Out (List ParsedElement × TextStream) →
    Option (List ParsedElement)
  | .ok (r, _) => some r
  | _ => none

/-! ## Concrete instances used by witnesses and counterexamples

The regex oracles are simple executable stand-ins: a pattern that never
matches, single-letter finders, and zero-width matchers. -/

/-- A pattern that matches nowhere (source without a lookbehind). -/
def patNever : Pattern := ⟨"x".data, fun _ => none⟩

/-- A zero-width pattern matching at offset 0 of any line. -/
def patZero : Pattern := ⟨"e".data, fun _ => some ⟨0, 0, fun _ => none⟩⟩

/-- A zero-width pattern matching at offset 2 of any line. -/
def patAt2 : Pattern := ⟨"q".data, fun _ => some ⟨2, 2, fun _ => none⟩⟩

/-- Finds the first literal letter given in its source. -/
def patFind (c : Char) : Pattern :=
  ⟨[c], fun cs =>
    match cs.findIdx? (fun x => x = c) with
    | some i => some ⟨i, i + 1, fun _ => none⟩
    | none => none⟩

/-- A never-matching pattern whose source holds a named group, not a
lookbehind. -/
def patNamedGroup : Pattern := ⟨"(?<name>x)".data, fun _ => none⟩

/-- A never-matching pattern whose source holds a real lookbehind. -/
def patLb : Pattern := ⟨"(?<=x)b".data, fun _ => none⟩

/-- A bare parser with no shape, used as a search owner. -/
def dummyParser : GrammarParser := .mk "" "" "" "" none none none [] [] [] []

/-- A match rule with a zero-width regex. -/
def zwParser : GrammarParser :=
  .mk "Z" "" "" "" (some patZero) none none [] [] [] []

/-- A patterns rule whose single alternative is the zero-width matcher. -/
def zwHost : GrammarParser :=
  .mk "" "" "" "" none none none [] [] [] [.inline zwParser]

/-- A match rule for the letter b. -/
def bParser : GrammarParser :=
  .mk "B" "" "" "" (some (patFind 'b')) none none [] [] [] []

/-- A match rule for the letter c. -/
def cParser : GrammarParser :=
  .mk "C" "" "" "" (some (patFind 'c')) none none [] [] [] []

/-- A match rule that never matches. -/
def neverParser : GrammarParser :=
  .mk "N" "" "" "" (some patNever) none none [] [] [] []

/-- A patterns rule whose children never match: its parse succeeds with an
empty element list. -/
def emptyOkParser : GrammarParser :=
  .mk "A" "" "" "" none none none [] [] [] [.inline neverParser]

/-- A patterns rule dispatching over the empty-success rule and the
c-matcher, in that order. -/
def selHost : GrammarParser :=
  .mk "" "" "" "" none none none [] [] []
    [.inline emptyOkParser, .inline cParser]

/-- A block rule whose begin matches the letter a and whose end never
matches. -/
def blockEndMiss : GrammarParser :=
  .mk "T" "" "" "" none (some (patFind 'a')) (some patNever) [] [] [] []

/-- A block rule with a zero-width begin at the window start and an end
whose match starts exactly at the window close, triggering the recursion
guard. -/
def blockGuard : GrammarParser :=
  .mk "T2" "" "" "" none (some patZero) (some patAt2) [] [] [] []

/-- A grammar whose single pattern is an unresolvable repository include. -/
def gBad : Grammar :=
  .mk "" "" "" none none none [] [] [] [.include "#missing"]

/-! ## Helper lemmas -/

/-- When the capture-group loop reports a group failure, it has rewound the
stream to the search entry position. -/
theorem parseGroups_none_pos (fuel : Nat) :
    ∀ (store : Store) (owner : GrammarParser) (matching : MatchObj)
      (mtsp initPos : Nat) (stream : TextStream) (acc : List ParsedElement)
      (ps : List (Nat × Ref)) (s' : TextStream),
      parseGroups fuel store owner matching mtsp initPos stream acc ps =
        .ok (none, s') → s'.pos = initPos := by
  induction fuel with
  | zero =>
    intro store owner matching mtsp initPos stream acc ps s' h
    simp [parseGroups] at h
  | succ fuel ih =>
    intro store owner matching mtsp initPos stream acc ps s' h
    rw [parseGroups.eq_def] at h
    rcases ps with _ | ⟨⟨gid, r⟩, rest⟩ <;> try dsimp only at h
    · cases h
    · rcases hg : matching.group gid with _ | ⟨a, b⟩ <;> rw [hg] at h <;>
        try dsimp only at h
      · exact ih store owner matching mtsp initPos stream acc rest s' h
      · by_cases hab : a = b
        · rw [if_pos hab] at h
          exact ih store owner matching mtsp initPos stream acc rest s' h
        · rw [if_neg hab] at h
          rcases hr : refParser owner r with _ | e | rp <;> rw [hr] at h <;>
            try dsimp only at h
          · cases h
          · cases h
          · rcases hp : parse fuel store rp stream (a + mtsp) (some (b + mtsp))
                with _ | e | ⟨⟨matched, els, sp2⟩, s1⟩ <;> rw [hp] at h <;>
              try dsimp only at h
            · cases h
            · cases h
            · rcases matched with _ | _ <;> try dsimp only at h
              · cases h
                rfl
              · exact ih store owner matching mtsp initPos s1 (acc ++ els) rest s' h

theorem search_fail_rewinds (fuel : Nat) (store : Store)
    (owner : GrammarParser) (regex : Pattern) (stream : TextStream)
    (parsers : List (Nat × Ref)) (rs : Option Int) (olw : Bool)
    (els : List ParsedElement) (sp : Option Nat) (s' : TextStream)
    (h : search fuel store owner regex stream parsers rs olw =
      .ok ((none, els, sp), s')) :
    els = [] ∧ sp = none ∧ s'.pos = stream.pos := by
  cases fuel with
  | zero => simp [search] at h
  | succ fuel =>
    rw [search] at h
    rcases hrun : (runSearchLoop regex stream.content stream.tell rs olw).1
        with _ | ⟨matching, mtsp⟩ <;> rw [hrun] at h <;> try dsimp only at h
    · cases h
      exact ⟨rfl, rfl, rfl⟩
    · rcases h0 : lookupNat parsers 0 with _ | r0 <;> rw [h0] at h <;>
        try dsimp only at h
      · by_cases hemp : parsers.isEmpty <;>
          [rw [if_pos hemp] at h; rw [if_neg hemp] at h]
        · cases h
        · rcases hpg : parseGroups fuel store owner matching mtsp stream.tell
              ((stream.seek (mtsp + matching.start)).readChars
                ((↑(mtsp + matching.stop) : Int) -
                  (↑(mtsp + matching.start) : Int))).2 [] parsers
              with _ | e | ⟨res, s3⟩ <;> rw [hpg] at h <;> try dsimp only at h
          · cases h
          · cases h
          · rcases res with _ | els' <;> try dsimp only at h
            · cases h
              exact ⟨rfl, rfl,
                parseGroups_none_pos fuel store owner matching mtsp stream.tell
                  _ [] parsers _ hpg⟩
            · by_cases he : els'.isEmpty <;>
                [rw [if_pos he] at h; rw [if_neg he] at h] <;> cases h
      · rcases hr : refParser owner r0 with _ | e | p0 <;> rw [hr] at h <;>
          dsimp only at h <;> cases h

/-! ## Claims -/

/-- C3: for every call to `search`, if the regex finds no match, or if any
matched capture group's sub-parser fails to parse its span, `search`
returns the triple `(null, [], null)` and the stream position on return
equals the stream position at entry (the whole search rewinds
atomically). -/
theorem search_failure_atomic :
    (∀ (fuel : Nat) (store : Store) (owner : GrammarParser) (regex : Pattern)
      (stream : TextStream) (parsers : List (Nat × Ref)) (rs : Option Int)
      (olw : Bool),
      (runSearchLoop regex stream.content stream.tell rs olw).1 = none →
      search (fuel + 1) store owner regex stream parsers rs olw =
        .ok ((none, [], none), stream.seek stream.pos)) ∧
    (∀ (fuel : Nat) (store : Store) (owner : GrammarParser) (regex : Pattern)
      (stream : TextStream) (parsers : List (Nat × Ref)) (rs : Option Int)
      (olw : Bool) (els : List ParsedElement) (sp : Option Nat)
      (s' : TextStream),
      search fuel store owner regex stream parsers rs olw =
        .ok ((none, els, sp), s') →
      els = [] ∧ sp = none ∧ s'.pos = stream.pos) := by
  constructor
  · intro fuel store owner regex stream parsers rs olw h
    rw [search, h]
    rfl
  · intro fuel store owner regex stream parsers rs olw els sp s' h
    exact search_fail_rewinds fuel store owner regex stream parsers rs olw
      els sp s' h

/-- Witness for C3 at a concrete never-matching pattern on the stream
"ab": both the no-match trigger and the failure-shape conclusion hold. -/
theorem search_failure_atomic_witness :
    search (4 + 1) [] dummyParser patNever ⟨"ab".data, 0⟩ [] (some 2) true =
      .ok ((none, [], none),
        TextStream.seek ⟨"ab".data, 0⟩ (TextStream.pos ⟨"ab".data, 0⟩)) ∧
    (([] : List ParsedElement) = [] ∧ (none : Option Nat) = none ∧
      TextStream.pos ⟨"ab".data, 0⟩ = TextStream.pos ⟨"ab".data, 0⟩) :=
  ⟨search_failure_atomic.1 4 [] dummyParser patNever ⟨"ab".data, 0⟩ []
      (some 2) true rfl,
    search_failure_atomic.2 5 [] dummyParser patNever ⟨"ab".data, 0⟩ []
      (some 2) true [] none ⟨"ab".data, 0⟩ rfl⟩

/-- C4 (amended): when a match-shape rule's parse is invoked with a
non-null `closePos`, it runs the search primitive with the rule's match
regex and captures map and a window size of `closePos - startPos + 1` —
one more than the `closePos − startPos` the spec states. -/
theorem match_window_plus_one (fuel : Nat) (store : Store)
    (p : GrammarParser) (mPat : Pattern) (stream : TextStream)
    (startPos c : Nat) (h : p.matchPat = some mPat) :
    parse (fuel + 1) store p stream startPos (some c) =
      matchShapeRun fuel store p mPat (stream.seek startPos)
        (some ((c : Int) - (startPos : Int) + 1)) := by
  rw [parse, h, matchShapeRun]
  rfl

/-- Counterexample to C4 as stated: on the stream "ab" with window
`[0, 1)`, the b-matching rule's parse succeeds (its window
`closePos - startPos + 1 = 2` reaches the b at offset 1), while the run
prescribed by the spec (window `closePos - startPos = 1`) fails. -/
theorem match_window_spec_cex :
    parseOutcome (parse 9 [] bParser ⟨"ab".data, 0⟩ 0 (some 1)) =
      some (true, [ParsedElement.elem "B" "b" []], some (1, 2)) ∧
    parseOutcome (parseMatchSpecC4 9 [] bParser ⟨"ab".data, 0⟩ 0 1) =
      some (false, [], none) := ⟨rfl, rfl⟩

/-- Witness for C4 (amended) at the b-matching rule on "ab". -/
theorem match_window_plus_one_witness :
    parse (8 + 1) [] bParser ⟨"ab".data, 0⟩ 0 (some 1) =
      matchShapeRun 8 [] bParser (patFind 'b')
        (TextStream.seek ⟨"ab".data, 0⟩ 0) (some ((1 : Int) - (0 : Int) + 1)) :=
  match_window_plus_one 8 [] bParser (patFind 'b') ⟨"ab".data, 0⟩ 0 1 rfl

/-- C7 (amended): when a block rule's begin search succeeds and its end
search fails, parse returns the failure triple and the cursor is left at
the position from which the end search started — the end of the begin
match — not at the position the parse started from. -/
theorem block_end_miss_cursor (fuel : Nat) (store : Store)
    (p : GrammarParser) (stream : TextStream) (startPos : Nat)
    (closePos : Option Nat) (bPat ePat : Pattern) (bStr : String)
    (bCaps : List ParsedElement) (bS : Option Nat)
    (eEls : List ParsedElement) (eSp : Option Nat) (s1 s2 : TextStream)
    (hm : p.matchPat = none) (hb : p.beginPat = some bPat)
    (he : p.endPat = some ePat)
    (h4 : search fuel store p bPat (stream.seek startPos) p.beginCaptures
      (matchReadSize startPos closePos) true = .ok ((some bStr, bCaps, bS), s1))
    (h5 : search fuel store p ePat s1 p.endCaptures
      (endReadSize s1.tell closePos) false = .ok ((none, eEls, eSp), s2)) :
    parse (fuel + 1) store p stream startPos closePos =
      .ok ((false, [], none), s2) ∧ s2.pos = s1.pos := by
  have hf := search_fail_rewinds fuel store p ePat s1 p.endCaptures
    (endReadSize s1.tell closePos) false eEls eSp s2 h5
  refine ⟨?_, hf.2.2⟩
  simp only [parse, hm, hb, he, h4, h5]

/-- Counterexample to C7 as stated: the block rule whose begin matches the
a at `[0, 1)` of "ab" and whose end never matches fails, but leaves the
cursor at 1 — the end of the begin match — not at the start position 0. -/
theorem block_end_miss_cursor_cex :
    parse 6 [] blockEndMiss ⟨"ab".data, 0⟩ 0 (some 2) =
      .ok ((false, [], none), ⟨"ab".data, 1⟩) ∧ (1 : Nat) ≠ 0 :=
  ⟨rfl, by decide⟩

/-- Witness for C7 (amended) at the concrete end-missing block on "ab". -/
theorem block_end_miss_cursor_witness :
    parse (5 + 1) [] blockEndMiss ⟨"ab".data, 0⟩ 0 (some 2) =
      .ok ((false, [], none), ⟨"ab".data, 1⟩) ∧
    TextStream.pos ⟨"ab".data, 1⟩ = TextStream.pos ⟨"ab".data, 1⟩ :=
  block_end_miss_cursor 5 [] blockEndMiss ⟨"ab".data, 0⟩ 0 (some 2)
    (patFind 'a') patNever "a" [] (some 0) [] none
    ⟨"ab".data, 1⟩ ⟨"ab".data, 1⟩ rfl rfl rfl rfl rfl

/-- C8: when a block rule's begin and end both match and
`(midStart, midClose) = (startPos, closePos)`, parse succeeds and its
element list is a single untagged leaf: the bare inner text
`read(midStart, midClose)`, with no recursion into inner patterns. -/
theorem block_recursion_guard (fuel : Nat) (store : Store)
    (p : GrammarParser) (stream : TextStream) (startPos : Nat)
    (closePos : Option Nat) (bPat ePat : Pattern) (bStr : String)
    (bCaps : List ParsedElement) (bS : Option Nat) (eStr : String)
    (eCaps : List ParsedElement) (midClose : Nat) (s1 s2 : TextStream)
    (hm : p.matchPat = none) (hb : p.beginPat = some bPat)
    (he : p.endPat = some ePat)
    (h4 : search fuel store p bPat (stream.seek startPos) p.beginCaptures
      (matchReadSize startPos closePos) true = .ok ((some bStr, bCaps, bS), s1))
    (h5 : search fuel store p ePat s1 p.endCaptures
      (endReadSize s1.tell closePos) false =
        .ok ((some eStr, eCaps, some midClose), s2))
    (hg : startPos = s1.tell ∧ closePos = some midClose) :
    parse (fuel + 1) store p stream startPos closePos =
      .ok ((true, [ParsedElement.raw (stream_read_pos s2 s1.tell midClose).1],
        some (s1.tell, midClose)), (stream_read_pos s2 s1.tell midClose).2) := by
  simp only [parse, hm, hb, he, h4, h5, Option.getD]
  rw [if_pos hg]

/-- Witness for C8: a zero-width begin at 0 and an end starting at 2 over
the full window `[0, 2)` of "ab" trigger the guard, producing the bare
string "ab" as the single element. -/
theorem block_recursion_guard_witness :
    parse (5 + 1) [] blockGuard ⟨"ab".data, 0⟩ 0 (some 2) =
      .ok ((true, [ParsedElement.raw "ab"], some (0, 2)), ⟨"ab".data, 2⟩) :=
  block_recursion_guard 5 [] blockGuard ⟨"ab".data, 0⟩ 0 (some 2) patZero
    patAt2 "" [] (some 0) "" [] 2 ⟨"ab".data, 0⟩ ⟨"ab".data, 2⟩
    rfl rfl rfl rfl rfl ⟨rfl, rfl⟩

/-- The only error pattern-reference resolution can raise is
`IncludedParserNotFound`. -/
theorem resolveAll_err_shape (store : Store) (owner : GrammarParser) :
    ∀ (l : List Ref) (e : PyErr), resolveAll store owner l = .err e →
      ∃ n, e = PyErr.includedParserNotFound n := by
  intro l
  induction l with
  | nil => intro e h; simp [resolveAll] at h
  | cons r rest ih =>
    intro e h
    rw [resolveAll] at h
    rcases r with _ | n | q
    · dsimp only [getParser] at h
      rcases hrest : resolveAll store owner rest with _ | e' | ps <;>
          rw [hrest] at h <;> try dsimp only at h
      · cases h
      · cases h; exact ih e hrest
      · cases h
    · dsimp only [getParser] at h
      rcases hl : storeLookup store n with _ | q <;> rw [hl] at h <;>
          try dsimp only at h
      · cases h
        exact ⟨n, rfl⟩
      · rcases hrest : resolveAll store owner rest with _ | e' | ps <;>
            rw [hrest] at h <;> try dsimp only at h
        · cases h
        · cases h; exact ih e hrest
        · cases h
    · dsimp only [getParser] at h
      rcases hrest : resolveAll store owner rest with _ | e' | ps <;>
          rw [hrest] at h <;> try dsimp only at h
      · cases h
      · cases h; exact ih e hrest
      · cases h

/-- C6 (amended): an include reference `#name` whose name has no entry in
the parser store does not fail construction; `set_parser` merely strips
the `#`, and `IncludedParserNotFound` is raised when `get_parser` first
resolves the reference, at dispatch time inside `match_patterns`. -/
theorem include_unresolved_dispatch_error :
    (∀ (store : Store) (owner : GrammarParser) (name : String),
      storeLookup store name = none →
      getParser store owner (Ref.ref name) =
        .err (.includedParserNotFound name)) ∧
    (∀ (fuel : Nat) (store : Store) (p : GrammarParser)
      (stream : TextStream) (a b : Nat) (e : PyErr),
      resolveAll store p p.patterns = .err e →
      match_patterns (fuel + 1) store p stream a b = .err e ∧
      ∃ n, e = PyErr.includedParserNotFound n) := by
  constructor
  · intro store owner name h
    simp [getParser, h]
  · intro fuel store p stream a b e h
    refine ⟨?_, resolveAll_err_shape store p p.patterns e h⟩
    rw [match_patterns, h]

/-- Counterexample to C6 as stated: constructing a rule from a grammar
with the unresolvable include `#missing` succeeds (the reference is kept
as a name), and the failure only surfaces when dispatch resolves it. -/
theorem include_unresolved_construction_cex :
    (GrammarParser.init gBad "").patterns = [Ref.ref "missing"] ∧
    match_patterns 9 [] (GrammarParser.init gBad "") ⟨"a".data, 0⟩ 0 1 =
      .err (.includedParserNotFound "missing") := ⟨rfl, rfl⟩

/-- Witness for C6 (amended) at the empty store and the `#missing`
grammar. -/
theorem include_unresolved_dispatch_error_witness :
    getParser [] dummyParser (Ref.ref "missing") =
      .err (.includedParserNotFound "missing") ∧
    (match_patterns (0 + 1) [] (GrammarParser.init gBad "") ⟨"a".data, 0⟩ 0 1 =
        .err (.includedParserNotFound "missing") ∧
      ∃ n, PyErr.includedParserNotFound "missing" =
        PyErr.includedParserNotFound n) :=
  ⟨include_unresolved_dispatch_error.1 [] dummyParser "missing" rfl,
    include_unresolved_dispatch_error.2 0 [] (GrammarParser.init gBad "") ⟨"a".data, 0⟩ 0 1
      (PyErr.includedParserNotFound "missing") rfl⟩

/-- Invariant of the lookbehind retry loop: starting from shift `lb`, the
`j`-th pass uses shift `min (lb + step * j) initPos`, and its pre-clamp
value stays within the loop bound. -/
theorem searchLog_entries (regex : Pattern) (content : List Char)
    (initPos : Nat) (readSize : Option Int) (olw performLb : Bool) :
    ∀ (n lb j x : Nat),
      ((searchLoopAux regex content initPos readSize olw performLb n lb).2)[j]? =
        some x →
      x = min (lb + regex_lookbehind_step * j) initPos ∧
        lb + regex_lookbehind_step * j ≤ regex_lookbehind_max := by
  intro n
  induction n with
  | zero => intro lb j x hx; simp [searchLoopAux] at hx
  | succ n ih =>
    intro lb j x hx
    simp only [searchLoopAux] at hx
    by_cases hmax : regex_lookbehind_max < lb
    · rw [if_pos hmax] at hx; simp at hx
    · rw [if_neg hmax] at hx
      cases hscan : scanPass regex content initPos readSize olw
          (if initPos < lb then initPos else lb) with
      | some r =>
        rw [hscan] at hx
        dsimp only at hx
        cases j with
        | zero =>
          simp only [List.getElem?_cons_zero, Option.some.injEq] at hx
          subst hx
          simp only [regex_lookbehind_step, regex_lookbehind_max] at *
          constructor
          · split_ifs with h <;> omega
          · omega
        | succ j => simp at hx
      | none =>
        rw [hscan] at hx
        by_cases hc : performLb ∧ lb ≤ initPos
        · rw [if_pos hc] at hx
          rcases hrec : searchLoopAux regex content initPos readSize olw
              performLb n (lb + regex_lookbehind_step) with ⟨res, log⟩
          rw [hrec] at hx
          dsimp only at hx
          cases j with
          | zero =>
            simp only [List.getElem?_cons_zero, Option.some.injEq] at hx
            subst hx
            simp only [regex_lookbehind_step, regex_lookbehind_max] at *
            constructor
            · split_ifs with h <;> omega
            · omega
          | succ j =>
            simp only [List.getElem?_cons_succ] at hx
            have hlog : (searchLoopAux regex content initPos readSize olw
                performLb n (lb + regex_lookbehind_step)).2[j]? = some x := by
              rw [hrec]
              exact hx
            have := ih (lb + regex_lookbehind_step) j x hlog
            simp only [regex_lookbehind_step, regex_lookbehind_max] at *
            omega
        · rw [if_neg hc] at hx
          dsimp only at hx
          cases j with
          | zero =>
            simp only [List.getElem?_cons_zero, Option.some.injEq] at hx
            subst hx
            simp only [regex_lookbehind_step, regex_lookbehind_max] at *
            constructor
            · split_ifs with h <;> omega
            · omega
          | succ j => simp at hx

/-- A loop entered within its bound performs at least one pass. -/
theorem searchLoopAux_log_ne_nil (regex : Pattern) (content : List Char)
    (initPos : Nat) (readSize : Option Int) (olw performLb : Bool)
    (n lb : Nat) (h : ¬ regex_lookbehind_max < lb) :
    (searchLoopAux regex content initPos readSize olw performLb
      (n + 1) lb).2 ≠ [] := by
  rw [searchLoopAux, if_neg h]
  rcases hscan : scanPass regex content initPos readSize olw
      (if initPos < lb then initPos else lb) with _ | r
  · by_cases hc : performLb ∧ lb ≤ initPos
    · rw [if_pos hc]
      rcases searchLoopAux regex content initPos readSize olw performLb n
          (lb + regex_lookbehind_step) with ⟨res, log⟩
      simp
    · rw [if_neg hc]
      simp
  · simp

/-- C5 (amended): during every call to `search`, the lookbehind shift of
the `j`-th pass is `min (regex_lookbehind_step * j) initPos` — it grows in
increments of 5, never exceeds `regex_lookbehind_max = 100`, and never
drags the scan start `initPos - shift` below buffer offset 0; and if the
pattern's source does not contain the substring `(?<` (the source's
lookbehind test on line 274, which also fires on named groups), the retry
loop executes exactly one pass.  The claim's own condition — "the pattern
contains no lookbehind" — does not guarantee a single pass: a named group
`(?<name>` is no lookbehind yet triggers retries. -/
theorem lookbehind_shift_invariants (regex : Pattern) (content : List Char)
    (initPos : Nat) (readSize : Option Int) (olw : Bool) :
    (∀ (j x : Nat),
      ((runSearchLoop regex content initPos readSize olw).2)[j]? = some x →
      x = min (regex_lookbehind_step * j) initPos ∧
      x ≤ regex_lookbehind_max ∧ x ≤ initPos) ∧
    (performLookbehind regex = false →
      ((runSearchLoop regex content initPos readSize olw).2).length = 1) := by
  constructor
  · intro j x hx
    rw [runSearchLoop] at hx
    have h := searchLog_entries regex content initPos readSize olw
      (performLookbehind regex)
      (regex_lookbehind_max / regex_lookbehind_step + 2) 0 j x hx
    simp only [regex_lookbehind_step, regex_lookbehind_max] at *
    omega
  · intro hpl
    have h22 : regex_lookbehind_max / regex_lookbehind_step + 2 = 21 + 1 := rfl
    rw [runSearchLoop, hpl, h22, searchLoopAux,
      if_neg (show ¬ regex_lookbehind_max < 0 by simp)]
    rcases hscan : scanPass regex content initPos readSize olw
        (if initPos < 0 then initPos else 0) with _ | r
    · dsimp only
      rw [if_neg (by simp)]
      rfl
    · rfl

/-- C9 (amended): the retry loop of `search` makes a single unshifted pass
exactly when the pattern source lacks the substring `(?<` (the source's
test, `performLookbehind`) or the first pass already matches.  A named
group `(?<name>` does trigger lookbehind growth, contrary to the claim. -/
theorem lookbehind_growth_iff (regex : Pattern) (content : List Char) (initPos : Nat)
    (readSize : Option Int) (olw : Bool) :
    ((runSearchLoop regex content initPos readSize olw).2).length = 1 ↔
      (performLookbehind regex = false ∨
        (scanPass regex content initPos readSize olw 0).isSome) := by
  have h22 : regex_lookbehind_max / regex_lookbehind_step + 2 = 21 + 1 := rfl
  rw [runSearchLoop, h22, searchLoopAux,
    if_neg (show ¬ regex_lookbehind_max < 0 by simp)]
  have hsh : (if initPos < 0 then initPos else 0) = 0 := by simp
  rw [hsh]
  rcases hscan : scanPass regex content initPos readSize olw 0 with _ | r
  · by_cases hpl : performLookbehind regex
    · rw [if_pos ⟨hpl, Nat.zero_le _⟩]
      rcases hrec : searchLoopAux regex content initPos readSize olw
          (performLookbehind regex) 21 (0 + regex_lookbehind_step)
          with ⟨res, log⟩
      have hne : log ≠ [] := by
        have hstep := searchLoopAux_log_ne_nil regex content initPos readSize
          olw (performLookbehind regex) 20 (0 + regex_lookbehind_step)
          (by simp [regex_lookbehind_max, regex_lookbehind_step])
        rw [show (20 : Nat) + 1 = 21 from rfl, hrec] at hstep
        simpa using hstep
      simp [hne, hpl, List.length_eq_zero]
    · have hplf : performLookbehind regex = false := by
        simpa [Bool.not_eq_true] using hpl
      rw [if_neg (by simp [hplf])]
      simp [hplf]
  · simp

/-- Counterexample to C9 as stated: the pattern `(?<name>x)` contains no
lookbehind construct under the spec's syntactic test, yet a failing search
over it performs two passes, not one. -/
theorem named_group_growth_cex :
    specLookbehindDetect patNamedGroup.source = false ∧
    ((runSearchLoop patNamedGroup "a".data 0 (some 2) true).2).length = 2 :=
  ⟨rfl, rfl⟩

/-- Counterexample to C5 as stated: the pattern `(?<name>x)` contains no
lookbehind construct under the spec's syntactic test, yet a failing search
over it at `initPos = 1` performs two passes — the shift log is `[0, 1]`,
the second pass clamped to the buffer start — so the retry loop does not
execute exactly one pass on this lookbehind-free pattern. -/
theorem lookbehind_single_pass_cex :
    specLookbehindDetect patNamedGroup.source = false ∧
    (runSearchLoop patNamedGroup "ab".data 1 (some 2) true).2 = [0, 1] ∧
    ((runSearchLoop patNamedGroup "ab".data 1 (some 2) true).2).length ≠ 1 :=
  ⟨rfl, rfl, by decide⟩

/-- Witness for C5 (amended): on a lookbehind pattern at `initPos = 7` the
third pass is clamped to `min 10 7 = 7`, and a pattern whose source lacks
`(?<` makes exactly one pass. -/
theorem lookbehind_shift_invariants_witness :
    (7 = min (regex_lookbehind_step * 2) 7 ∧ 7 ≤ regex_lookbehind_max ∧
      (7 : Nat) ≤ 7) ∧
    ((runSearchLoop patNever "ab".data 0 (some 2) true).2).length = 1 :=
  ⟨(lookbehind_shift_invariants patLb "ab".data 7 (some 2) true).1 2 7 rfl,
    (lookbehind_shift_invariants patNever "ab".data 0 (some 2) true).2 rfl⟩

/-- Once the dispatch loop has memoized the zero-width result at cursor 0,
every further iteration reuses it without advancing the cursor: the loop
never terminates, whatever the fuel and the accumulated elements. -/
theorem zw_loop_diverges (fuel : Nat) :
    ∀ captured, mpLoop fuel [] [zwParser] ⟨"a".data, 0⟩ 1 0
      [some ([ParsedElement.elem "Z" "" []], (0, 0))] captured = .diverge := by
  induction fuel using Nat.strong_induction_on with
  | _ fuel ih =>
    rcases fuel with _ | _ | _ | j
    · intro captured; rfl
    · intro captured; rfl
    · intro captured; rfl
    · intro captured
      have step : mpLoop (j + 3) [] [zwParser] ⟨"a".data, 0⟩ 1 0
          [some ([ParsedElement.elem "Z" "" []], (0, 0))] captured =
        mpLoop (j + 2) [] [zwParser] ⟨"a".data, 0⟩ 1 0
          [some ([ParsedElement.elem "Z" "" []], (0, 0))]
          (captured ++ [ParsedElement.elem "Z" "" []]) := rfl
      rw [step]
      exact ih (j + 2) (by omega) (captured ++ [ParsedElement.elem "Z" "" []])

/-- From an empty memo the first iteration computes the zero-width match
and re-enters the loop at the same cursor: divergence for every fuel. -/
theorem zw_loop0_diverges (fuel : Nat) :
    mpLoop fuel [] [zwParser] ⟨"a".data, 0⟩ 1 0 [none] [] = .diverge := by
  rcases fuel with _ | _ | _ | _ | j
  · rfl
  · rfl
  · rfl
  · rfl
  · have step : mpLoop (j + 4) [] [zwParser] ⟨"a".data, 0⟩ 1 0 [none] [] =
        mpLoop (j + 3) [] [zwParser] ⟨"a".data, 0⟩ 1 0
          [some ([ParsedElement.elem "Z" "" []], (0, 0))]
          [ParsedElement.elem "Z" "" []] := rfl
    rw [step]
    exact zw_loop_diverges (j + 3) [ParsedElement.elem "Z" "" []]

/-- C1: the code violates the claim.  On a grammar whose single rule is a
zero-width match, `match_patterns` over the window `[0, 1)` of the buffer
"a" selects the winner with `matchEnd = matchStart = 0` equal to the
cursor, never advances the cursor by 1, and loops forever: the result is
`diverge` for every fuel.  The guard the claim describes is absent from
the source. -/
theorem dispatch_zero_width_diverges : ∀ fuel,
    match_patterns fuel [] zwHost ⟨"a".data, 0⟩ 0 1 = .diverge := by
  intro fuel
  rcases fuel with _ | k
  · rfl
  · have step : match_patterns (k + 1) [] zwHost ⟨"a".data, 0⟩ 0 1 =
        mpLoop k [] [zwParser] ⟨"a".data, 0⟩ 1 0 [none] [] := rfl
    rw [step]
    exact zw_loop0_diverges k

/-- The binary selection is associative. -/
theorem bestOf_assoc (a b c : MemoE) :
    bestOf (bestOf a b) c = bestOf a (bestOf b c) := by
  unfold bestOf
  split_ifs <;> first | rfl | omega

/-- The binary selection picks one of its arguments. -/
theorem bestOf_cases (a b : MemoE) : bestOf a b = a ∨ bestOf a b = b := by
  unfold bestOf
  split_ifs <;> simp

/-- A left fold of the binary selection can absorb its seed. -/
theorem foldl_bestOf_shift (t : List MemoE) :
    ∀ x y, t.foldl bestOf (bestOf x y) = bestOf x (t.foldl bestOf y) := by
  induction t with
  | nil => intro x y; rfl
  | cons e t ih =>
    intro x y
    simp only [List.foldl]
    rw [bestOf_assoc]
    exact ih x (bestOf y e)

/-- The spec's selection over a non-empty candidate list is the left fold
of the binary selection seeded with the first candidate. -/
theorem specSelect_eq_foldl (rest : List MemoE) :
    ∀ c, specSelect (c :: rest) = some (rest.foldl bestOf c) := by
  induction rest with
  | nil => intro c; rfl
  | cons d t ih =>
    intro c
    rw [specSelect, ih d]
    simp only [List.foldl]
    rw [foldl_bestOf_shift]
    unfold bestOf
    split_ifs <;> rfl

/-- As long as no element list involved is empty, the source's running
best (lines 240-245) computes exactly the binary-selection fold. -/
theorem foldl_updateBest_pack (cands : List MemoE) :
    ∀ (b : MemoE), b.1 ≠ [] → (∀ c ∈ cands, c.1 ≠ []) →
      cands.foldl updateBest (b.1, some b.2) =
        ((cands.foldl bestOf b).1, some ((cands.foldl bestOf b).2)) := by
  induction cands with
  | nil => intro b hb hc; rfl
  | cons c rest ih =>
    intro b hb hc
    simp only [List.foldl]
    have h1 : updateBest (b.1, some b.2) c = ((bestOf b c).1, some (bestOf b c).2) := by
      unfold updateBest bestOf
      rw [if_neg (show ¬ b.1.isEmpty = true by simpa using hb)]
      dsimp only
      split_ifs <;> rfl
    rw [h1]
    have hbc : (bestOf b c).1 ≠ [] := by
      rcases bestOf_cases b c with h | h <;> rw [h]
      · exact hb
      · exact hc c (List.mem_cons_self c rest)
    exact ih (bestOf b c) hbc (fun d hd => hc d (List.mem_cons_of_mem c hd))

/-- C2 (amended): provided every successful candidate carries a non-empty
element list, the selection of one `match_patterns` iteration follows the
claimed policy — smallest `matchStart` wins, ties go to the largest
`matchEnd`, remaining ties to the earliest candidate in `P` order.  A
successful candidate with an empty element list voids the running best
(`not patternElements`, line 241), so without the proviso a later, worse
candidate can win. -/
theorem dispatch_selection_policy (cands : List MemoE) (h : ∀ c ∈ cands, c.1 ≠ []) :
    mpSelect cands =
      match specSelect cands with
      | none => ([], none)
      | some w => (w.1, some w.2) := by
  rcases cands with _ | ⟨c, rest⟩
  · rfl
  · rw [specSelect_eq_foldl rest c]
    unfold mpSelect
    simp only [List.foldl]
    have h1 : updateBest ([], none) c = (c.1, some c.2) := by
      unfold updateBest
      simp
    rw [h1]
    exact foldl_updateBest_pack rest c (h c (List.mem_cons_self c rest))
      (fun d hd => h d (List.mem_cons_of_mem c hd))

/-- Counterexample to C2 as stated: over "abcde" with window `[0, 5)`, the
patterns rule succeeds at cursor 0 with `matchStart = 0` but an empty
element list, and the c-matcher with `matchStart = 2` wins the iteration —
not the candidate with the smallest `matchStart`.  The third conjunct
shows the selection fold itself preferring the later candidate. -/
theorem dispatch_selection_policy_cex :
    parseOutcome (parse 9 [] emptyOkParser ⟨"abcde".data, 0⟩ 0 (some 5)) =
      some (true, [], some (0, 0)) ∧
    dispatchOutcome (match_patterns 30 [] selHost ⟨"abcde".data, 0⟩ 0 5) =
      some [ParsedElement.elem "C" "c" []] ∧
    mpSelect [([], (0, 0)), ([ParsedElement.elem "C" "c" []], (2, 3))] =
      ([ParsedElement.elem "C" "c" []], some (2, 3)) :=
  ⟨rfl, rfl, rfl⟩

/-- Witness for C2 (amended) at two non-empty candidates tied on
`matchStart`: the larger `matchEnd` wins. -/
theorem dispatch_selection_policy_witness :
    mpSelect [([ParsedElement.raw "w"], (1, 4)), ([ParsedElement.raw "v"], (1, 2))] =
      (match specSelect [([ParsedElement.raw "w"], (1, 4)),
          ([ParsedElement.raw "v"], (1, 2))] with
        | none => ([], none)
        | some w => (w.1, some w.2)) :=
  dispatch_selection_policy [([ParsedElement.raw "w"], (1, 4)), ([ParsedElement.raw "v"], (1, 2))]
    (by intro c hc; fin_cases hc <;> simp)

/-- C10: every failing return of `parse` is exactly the triple
`(False, [], None)`: whatever the rule shape and the failing step, a
reported failure carries no partial elements and no span. -/
theorem parse_failure_shape (fuel : Nat) (store : Store) (p : GrammarParser)
    (stream : TextStream) (sp : Nat) (cp : Option Nat)
    (els : List ParsedElement) (span : Option (Nat × Nat)) (s' : TextStream)
    (h : parse fuel store p stream sp cp = .ok ((false, els, span), s')) :
    els = [] ∧ span = none := by
  cases fuel with
  | zero => simp [parse] at h
  | succ fuel =>
    simp only [parse] at h
    repeat' split at h
    all_goals simp_all

/-- Witness for C10 at the never-matching rule on "a". -/
theorem parse_failure_shape_witness :
    (([] : List ParsedElement) = [] ∧ (none : Option (Nat × Nat)) = none) :=
  parse_failure_shape 5 [] neverParser ⟨"a".data, 0⟩ 0 (some 1) [] none ⟨"a".data, 0⟩ rfl

end TMGrammar
